/-
Verification of the arcaeacharts-db-pipeline repository (src/pipeline.py and
src/scraper.py) against its natural-language specification.

The Python sources are shallowly embedded: dict-shaped rows become structures
over `Option String` (a missing key or Python `None` is `none`), Python dicts
used as insertion-ordered maps become association lists, numeric values become
`Rat`, and code that can raise becomes `Except`-valued environments.
-/
import Mathlib

namespace ArcaeaPipeline

/-! ## String helpers

Python string primitives used by the sources, modelled over `List Char`.
`pyStrip` models `str.strip()` (both-ends whitespace removal), `pyLower`
models `str.lower()` (exact on ASCII, which is all the comparison logic
relies on), `replaceUnderscore` models `str.replace("_", " ")`. -/

/-- Both-ends whitespace trim on a character list, as Python `str.strip()`. -/
def stripList (l : List Char) : List Char :=
  ((l.dropWhile Char.isWhitespace).reverse.dropWhile Char.isWhitespace).reverse

/-- Model of Python `str.strip()`. -/
def pyStrip (s : String) : String :=
  ⟨stripList s.data⟩

/-- Model of Python `str.lower()` (character-wise; exact on ASCII input). -/
def pyLower (s : String) : String :=
  ⟨s.data.map Char.toLower⟩

/-- Model of Python `s.replace("_", " ")`. -/
def replaceUnderscore (s : String) : String :=
  ⟨s.data.map (fun c => if c = '_' then ' ' else c)⟩

/-! ## Python `float()` on strings

`pipeline.py` calls `float(const_val)` and `scraper.py` calls `float(cleaned)`.
This models Python `float()` restricted to plain decimal literals
(optional sign, digits, optional fraction part), which is the value domain of
this data; exotic accepted forms (`inf`, `nan`, exponents, embedded
underscores) are modelled as parse failures. A failed parse is `none`. -/

/-- Value of an all-digit character list; `none` if any character is not a
digit. The empty list yields `some 0` (callers guard emptiness). -/
def digitsVal? (l : List Char) : Option Nat :=
  l.foldl
    (fun acc c =>
      match acc with
      | none => none
      | some n => if c.isDigit then some (10 * n + (c.toNat - 48)) else none)
    (some 0)

/-- Unsigned decimal literal: `digits`, `digits.`, `.digits` or
`digits.digits`; anything else fails. -/
def parseUnsignedFloat? (l : List Char) : Option Rat :=
  match l.span (fun c => c ≠ '.') with
  | (ip, []) =>
    if ip = [] then none else (digitsVal? ip).map (fun n => mkRat (Int.ofNat n) 1)
  | (ip, _ :: fp) =>
    if fp.contains '.' then none
    else if ip = [] && fp = [] then none
    else
      match digitsVal? ip, digitsVal? fp with
      | some i, some f =>
        some (mkRat (Int.ofNat (i * 10 ^ fp.length + f)) (10 ^ fp.length))
      | _, _ => none

/-- Model of Python `float(s)` for a string argument: surrounding whitespace
is ignored, an optional single leading sign is allowed. -/
def pyFloat? (s : String) : Option Rat :=
  match (pyStrip s).data with
  | '-' :: rest => (parseUnsignedFloat? rest).map Neg.neg
  | '+' :: rest => parseUnsignedFloat? rest
  | l => parseUnsignedFloat? l

/-! ## Data model

`RawRow` is the dict shape flowing into the normalization stage of
`run_pipeline`: string fields may be missing/`None` (`Option String`), while
`chart_constant` may additionally already be a float (rows produced by
`parse_song_soup` store `constant_val`, a float or `None`). -/

/-- The possible Python values of the `chart_constant` entry of a raw row. -/
inductive ConstVal where
  | null : ConstVal
  | str : String → ConstVal
  | num : Rat → ConstVal
deriving DecidableEq

/-- A raw row dict as consumed by the normalization stage of `run_pipeline`. -/
structure RawRow where
  song : Option String
  artist : Option String
  difficulty : Option String
  chart_constant : ConstVal
  level : Option String
  version : Option String
deriving DecidableEq

/-- The normalized record built in `run_pipeline` (the dict `r`). -/
structure SongRec where
  title : String
  artist : String
  difficulty : String
  constant : Option Rat
  level : String
  version : String
deriving DecidableEq

/-- A row of the export CSV, rebuilt from a `SongRec` in `run_pipeline`. -/
structure ExportRow where
  song : String
  artist : String
  difficulty : String
  chart_constant : Option Rat
  level : String
  version : String
deriving DecidableEq

/-- The deduplication key `(title, artist, difficulty)`. -/
abbrev SongKey := String × String × String

/-! ## Normalizer/Deduplicator (`run_pipeline`, pipeline.py lines 125-168) -/

/-- The `const_val` standardization in `run_pipeline`: `None`, `""` and `"-"`
become absent; a string is parsed with `float`, parse failure becoming absent;
an already-numeric value passes through (Python `float(x)` on a float). -/
def stdConst : ConstVal → Option Rat
  | .null => none
  | .str s => if s = "" ∨ s = "-" then none else pyFloat? s
  | .num q => some q

/-- The exclusion rule of `run_pipeline`: a row is skipped when its
standardized constant is present and exceeds 13. -/
def excluded (row : RawRow) : Bool :=
  match stdConst row.chart_constant with
  | some q => decide (13 < q)
  | none => false

/-- The per-row transform of `run_pipeline`: `(row.get(k) or "").strip()` per
string field, plus the standardized constant. -/
def normalizeRow (row : RawRow) : SongRec where
  title := pyStrip (row.song.getD "")
  artist := pyStrip (row.artist.getD "")
  difficulty := pyStrip (row.difficulty.getD "")
  constant := stdConst row.chart_constant
  level := pyStrip (row.level.getD "")
  version := pyStrip (row.version.getD "")

/-- The dedup key of a normalized record. -/
def recordKey (r : SongRec) : SongKey :=
  (r.title, r.artist, r.difficulty)

/-- The dedup key a raw row would be stored under. -/
def rowKey (row : RawRow) : SongKey :=
  recordKey (normalizeRow row)

/-- Update of the insertion-ordered map `unique_rows` (a Python dict keyed by
`(title, artist, difficulty)`): an existing key keeps its position and gets
the new value; a new key is appended. -/
def insertOrdered : List (SongKey × SongRec) → SongKey → SongRec → List (SongKey × SongRec)
  | [], k, v => [(k, v)]
  | e :: m, k, v => if e.1 = k then (k, v) :: m else e :: insertOrdered m k v

/-- One iteration of the `for row in rows` loop building `unique_rows`. -/
def normStep (m : List (SongKey × SongRec)) (row : RawRow) : List (SongKey × SongRec) :=
  if excluded row then m else insertOrdered m (rowKey row) (normalizeRow row)

/-- The `unique_rows` mapping after processing all rows. -/
def normMap (rows : List RawRow) : List (SongKey × SongRec) :=
  rows.foldl normStep []

/-- `db_rows = list(unique_rows.values())`: the normalized, deduplicated
output of `run_pipeline`. -/
def normalize (rows : List RawRow) : List SongRec :=
  (normMap rows).map (·.2)

/-- Rebuild of one export row from a normalized record (`run_pipeline`). -/
def toExportRow (r : SongRec) : ExportRow where
  song := r.title
  artist := r.artist
  difficulty := r.difficulty
  chart_constant := r.constant
  level := r.level
  version := r.version

/-- `export_rows`, rebuilt from `db_rows` in order. -/
def exportRows (recs : List SongRec) : List ExportRow :=
  recs.map toExportRow

/-- The identity key of an export row. -/
def exportKey (e : ExportRow) : SongKey :=
  (e.song, e.artist, e.difficulty)

/-! ## Gap check (`run_pipeline`, pipeline.py lines 93-102)

`existing_titles_csv = set((r.get("song") or "").strip().lower() for r in rows)`
and `norm_title = title.replace("_", " ").strip().lower()`; a title is missing
when its normalized form is not in the existing set. The Python set is
modelled as a list used only through membership. -/

/-- The normalization applied to the known (CSV) side: strip then lower. -/
def normExisting (s : String) : String :=
  pyLower (pyStrip s)

/-- `existing_titles_csv`: one normalized entry per raw row. -/
def existingTitles (rows : List RawRow) : List String :=
  rows.map (fun r => normExisting (r.song.getD ""))

/-- The normalization applied to feed titles: underscore to space, strip,
lower. -/
def normFeed (t : String) : String :=
  pyLower (pyStrip (replaceUnderscore t))

/-- `missing_titles`: feed titles whose normalized form is absent from the
existing set, in feed order. -/
def computeGaps (songTitles : List String) (rows : List RawRow) : List String :=
  songTitles.filter (fun t => !(existingTitles rows).contains (normFeed t))

/-- Modelled from the spec: gap computation as the spec words it, with the
underscore-to-space normalization applied on BOTH sides of the comparison
(the code under src/ applies it only to the feed side). Used solely to
compare against `computeGaps`. -/
def specGapsBothSides (songTitles : List String) (rows : List RawRow) : List String :=
  songTitles.filter
    (fun t => !(rows.map (fun r => normFeed (r.song.getD ""))).contains (normFeed t))

/-! ## Detail pages (`parse_song_soup` / `fetch_song`, scraper.py)

The BeautifulSoup object is modelled by the pieces `parse_song_soup` reads:
the optional title element texts, the optional artist element text, and the
`table.pi-horizontal-group` tables, each reduced to its `tbody td` cells. A
cell carries its raw text plus the `(class attribute, text)` of its nested
spans, in document order, which is what `select_one('span[class*=key]')`
consults. -/

/-- A `tbody td` cell of a chart table. -/
structure VCell where
  text : String
  spans : List (String × String)
deriving DecidableEq

/-- One `table.pi-horizontal-group`, reduced to its `tbody td` cells. -/
structure ChartTable where
  cells : List VCell
deriving DecidableEq

/-- The parts of a song page's soup that `parse_song_soup` reads. The four
`fallbackHeadings` entries are the texts of the elements matched by
`h1.page-header__title`, `h1#firstHeading`, `.song-template-title`, `h1`
(`none` when the selector matches nothing). -/
structure SongSoup where
  titleMain : Option String
  fallbackHeadings : List (Option String)
  artistElem : Option String
  chartTables : List ChartTable
deriving DecidableEq

/-- Substring test on the character lists of two strings, modelling the CSS
`[class*="key"]` attribute test. -/
def strContains (hay needle : String) : Bool :=
  hay.data.tails.any (fun t => needle.data.isPrefixOf t)

/-- `extract_chart_prop`: text of the first nested span whose class attribute
contains the difficulty key, `""` when there is none. -/
def extract_chart_prop (cell : VCell) (difficulty_key : String) : String :=
  match cell.spans.find? (fun sp => strContains sp.1 difficulty_key) with
  | some sp => pyStrip sp.2
  | none => ""

/-- The regex `[^\d\.-]` removal inside `safe_decimal`: keep only digits,
dots and minus signs. -/
def cleanNumeric (s : String) : String :=
  ⟨s.data.filter (fun c => c.isDigit || c = '.' || c = '-')⟩

/-- `safe_decimal`: `None` for a falsy value, else clean and parse as float,
parse failure yielding `None`. -/
def safe_decimal (val : String) : Option Rat :=
  if val = "" then none else pyFloat? (cleanNumeric val)

/-- Fuel-driven scan for `re.sub(r"\([^)]+\)", "", s)`: at a `(` whose
`)`-free body is nonempty and closed by `)`, the whole group is dropped and
the scan resumes after the `)`; otherwise the character is kept. Every step
consumes at least one input character, so fuel equal to the input length
never runs out. -/
def removeParenAux : Nat → List Char → List Char
  | 0, l => l
  | _ + 1, [] => []
  | fuel + 1, c :: rest =>
    if c = '(' then
      match rest.dropWhile (fun x => x ≠ ')') with
      | ')' :: tailAfter =>
        if rest.takeWhile (fun x => x ≠ ')') = [] then c :: removeParenAux fuel rest
        else removeParenAux fuel tailAfter
      | _ => c :: removeParenAux fuel rest
    else c :: removeParenAux fuel rest

/-- One pass of `re.sub(r"\([^)]+\)", "", s)`: drop every parenthesized group
with a nonempty `)`-free body, leftmost-first, as the regex engine does. -/
def removeParenGroups (l : List Char) : List Char :=
  removeParenAux l.length l

/-- Title resolution in `parse_song_soup`: the primary selector, then the
first present fallback heading (even if its stripped text is empty), then
the fallback name with underscores replaced. -/
def resolveTitle (soup : SongSoup) (fallback_title : String) : String :=
  let t1 := match soup.titleMain with
    | some s => pyStrip s
    | none => ""
  let t2 :=
    if t1 = "" then
      match soup.fallbackHeadings.find? (fun o => o.isSome) with
      | some (some s) => pyStrip s
      | _ => ""
    else t1
  if t2 = "" ∧ fallback_title ≠ "" then replaceUnderscore fallback_title else t2

/-- Artist resolution in `parse_song_soup`: parenthesized groups removed,
then stripped; `""` when the element is absent. -/
def resolveArtist (soup : SongSoup) : String :=
  match soup.artistElem with
  | some s => pyStrip ⟨removeParenGroups s.data⟩
  | none => ""

/-- The fixed `(difficulty name, class key)` list of `parse_song_soup`. -/
def difficulties : List (String × String) :=
  [("Past", "pst"), ("Present", "prs"), ("Future", "ftr"),
   ("Eternal", "etr"), ("Beyond", "byd")]

/-- One iteration of the `for difficulty_name, class_key in difficulties`
loop: `none` when the variant is skipped (empty tier or bare dash). -/
def variantRow (title artist : String) (level_cell constant_cell : VCell)
    (d : String × String) : Option RawRow :=
  let level_str := extract_chart_prop level_cell d.2
  let constant_val := safe_decimal (extract_chart_prop constant_cell d.2)
  if level_str = "" ∨ pyStrip level_str = "-" then none
  else
    some { song := some title, artist := some artist, difficulty := some d.1,
           chart_constant := match constant_val with
             | some q => ConstVal.num q
             | none => ConstVal.null,
           level := some level_str, version := some "" }

/-- The rows built from the first chart table (keyed span lookups); empty
when the table has fewer than 3 data cells. -/
def baseVariants (title artist : String) (default_table : ChartTable) : List RawRow :=
  match default_table.cells with
  | level_cell :: _ :: constant_cell :: _ =>
    difficulties.filterMap (variantRow title artist level_cell constant_cell)
  | _ => []

/-- The Beyond row contributed by a second chart table, appended only when
its tier is nonempty and not a dash and no Beyond row exists yet. -/
def bydFromTable (title artist : String) (base : List RawRow) (byd_table : ChartTable) :
    List RawRow :=
  match byd_table.cells with
  | b0 :: _ :: b2 :: _ =>
    let level_str := pyStrip b0.text
    let constant_val := safe_decimal (pyStrip b2.text)
    if level_str ≠ "" ∧ pyStrip level_str ≠ "-" then
      if base.any (fun s => s.difficulty == some "Beyond") then base
      else base ++
        [{ song := some title, artist := some artist,
           difficulty := some "Beyond",
           chart_constant := match constant_val with
             | some q => ConstVal.num q
             | none => ConstVal.null,
           level := some level_str, version := some "" }]
    else base
  | _ => base

/-- The `if len(chart_tables) >= 2` step of `parse_song_soup`. -/
def bydAddition (title artist : String) (base : List RawRow) :
    List ChartTable → List RawRow
  | [] => base
  | byd_table :: _ => bydFromTable title artist base byd_table

/-- `parse_song_soup`: title and artist resolution, the keyed first chart
table, and the optional second (Beyond) table. -/
def parse_song_soup (soup : SongSoup) (fallback_title : String) : List RawRow :=
  let title := resolveTitle soup fallback_title
  let artist := resolveArtist soup
  match soup.chartTables with
  | [] => []
  | default_table :: rest =>
    bydAddition title artist (baseVariants title artist default_table) rest

/-- `fetch_song`: the fetch/parse of one page, with every exception caught at
the call boundary and turned into an empty list. The fetch outcome is the
environment-supplied `Except` value. -/
def fetch_song (fetched : Except String SongSoup) (page_title : String) : List RawRow :=
  match fetched with
  | .error _ => []
  | .ok soup => parse_song_soup soup (replaceUnderscore page_title)

/-- The `for m_title in missing_titles` loop of `run_pipeline`: each
candidate's entries are appended to `rows` (an empty result appends
nothing). -/
def fillGaps (rows : List RawRow) (candidates : List (String × Except String SongSoup)) :
    List RawRow :=
  candidates.foldl (fun acc c => acc ++ fetch_song c.2 c.1) rows

/-- Environment of the news/gap step of `run_pipeline`: the outcome of
`scrape_news_links`, of `filter_song_pages`, and of each per-title fetch.
The two scraper calls are the only statements inside the `try` block that can
raise (`fetch_song` catches its own exceptions), and both precede any
mutation of `rows`. -/
structure NewsEnv where
  linksResult : Except String (List String)
  filterResult : List String → Except String (List String)
  soups : String → Except String SongSoup

/-- Whether the news/gap step as a whole raises (and is caught by the
`except` around the step). -/
def stageRaises (env : NewsEnv) : Bool :=
  match env.linksResult with
  | .error _ => true
  | .ok titles =>
    match env.filterResult titles with
    | .error _ => true
    | .ok _ => false

/-- The news/gap step of `run_pipeline` (lines 83-121): on a caught exception
or an empty filtered list, `rows` is unchanged; otherwise the missing titles
are fetched and appended. -/
def gapFillStage (rows : List RawRow) (env : NewsEnv) : List RawRow :=
  match env.linksResult with
  | .error _ => rows
  | .ok titles =>
    match env.filterResult titles with
    | .error _ => rows
    | .ok songTitles =>
      if songTitles.isEmpty then rows
      else fillGaps rows ((computeGaps songTitles rows).map (fun t => (t, env.soups t)))

/-! ## Songs-by-Level table extraction (`parse_songs_by_level_html`,
scraper.py lines 188-244)

The document is modelled as its tables in document order; each table carries
its class attribute tokens and its `tbody tr` rows, each row its `td` cells.
A cell carries its raw text and, for the song column, the text of its first
nested link when present. -/

/-- A `td` cell of the level table. -/
structure Cell where
  text : String
  link : Option String
deriving DecidableEq

/-- A `tbody tr` row of the level table. -/
structure TableRow where
  tds : List Cell
deriving DecidableEq

/-- A `table` element: class attribute tokens plus rows. -/
structure WikiTable where
  classes : List String
  rows : List TableRow
deriving DecidableEq

/-- `get_text(strip=True)` of a cell. -/
def cellText (c : Cell) : String :=
  pyStrip c.text

/-- The song title of column 0: the first nested link's text when a link is
present, else the cell text. -/
def songCellText (c : Cell) : String :=
  match c.link with
  | some t => pyStrip t
  | none => pyStrip c.text

/-- One iteration of the row loop: rows with fewer than 6 cells and rows with
an empty song title are skipped. -/
def parseLevelRow (tr : TableRow) : Option RawRow :=
  match tr.tds with
  | c0 :: c1 :: c2 :: c3 :: c4 :: c5 :: _ =>
    let song_title := songCellText c0
    if song_title = "" then none
    else
      some { song := some song_title, artist := some (cellText c1),
             difficulty := some (cellText c2),
             chart_constant := ConstVal.str (cellText c3),
             level := some (cellText c4), version := some (cellText c5) }
  | _ => none

/-- Whether a table matches a class selector (all listed classes present). -/
def tableMatches (classes : List String) (t : WikiTable) : Bool :=
  classes.all (fun c => t.classes.contains c)

/-- The four ordered class selectors of `parse_songs_by_level_html`. -/
def selectorList : List (List String) :=
  [["wikitable", "sortable"], ["article-table", "sortable"],
   ["wikitable"], ["sortable"]]

/-- `for sel in selectors: tables = soup.select(sel); if tables: break`. -/
def selectTables : List (List String) → List WikiTable → List WikiTable
  | [], _ => []
  | sel :: restSel, doc =>
    let ts := doc.filter (tableMatches sel)
    if ts.isEmpty then selectTables restSel doc else ts

/-- Whether a table has at least one row with 6 or more cells (the condition
the fallback loop of `parse_songs_by_level_html` actually tests). -/
def tableHasWideRow (t : WikiTable) : Bool :=
  t.rows.any (fun r => decide (6 ≤ r.tds.length))

/-- Table selection of `parse_songs_by_level_html`: the first selector with a
match wins; otherwise the fallback scan keeps only the first table containing
any row with 6 or more cells. -/
def pickTables (doc : List WikiTable) : List WikiTable :=
  let ts := selectTables selectorList doc
  if ts.isEmpty then
    match doc.find? tableHasWideRow with
    | some t => [t]
    | none => []
  else ts

/-- `parse_songs_by_level_html`: parse every row of every selected table in
document order. -/
def parse_songs_by_level_html (doc : List WikiTable) : List RawRow :=
  (pickTables doc).foldr (fun t acc => t.rows.filterMap parseLevelRow ++ acc) []

/-- Modelled from the spec: the fallback selection as the spec words it,
selecting the first table whose FIRST data row has at least 6 cells. Used
solely to compare against `pickTables`. -/
def specFallbackPick (doc : List WikiTable) : Option WikiTable :=
  doc.find? (fun t =>
    match t.rows.head? with
    | some r => decide (6 ≤ r.tds.length)
    | none => false)

/-! ## Exit status (`run_pipeline` entry and `main`, pipeline.py)

`main` returns 0 when `run_pipeline` returns normally and exits with status 1
when it raises. `run_pipeline` raises when the credentials are missing; when
the scrape yields zero rows it logs an error and returns normally (early
`return`). Downstream I/O is external and assumed successful. -/

/-- Whether `run_pipeline` returns normally or raises. -/
inductive RunResult where
  | normal : RunResult
  | raised : String → RunResult
deriving DecidableEq

/-- The environment of a pipeline run as far as exit status is concerned. -/
structure PipelineEnv where
  creds : Option (String × String)
  scraped : List RawRow

/-- Control flow of `run_pipeline` relevant to exit status: missing
credentials raise; an empty scrape result logs an error and RETURNS (early
`return`, not an exception); otherwise the run proceeds to completion. -/
def run_pipeline_result (env : PipelineEnv) : RunResult :=
  match env.creds with
  | none => .raised "SUPABASE_URL and SUPABASE_SERVICE_ROLE_KEY must be set."
  | some _ => if env.scraped.isEmpty then .normal else .normal

/-- `main`: 0 on normal return, 1 when `run_pipeline` raises. -/
def main_exit (env : PipelineEnv) : Nat :=
  match run_pipeline_result env with
  | .normal => 0
  | .raised _ => 1

/-! ## Derived order notion and concrete fixtures -/

/-- Keys in order of first occurrence (the key order of a Python dict built
by repeated assignment). -/
def firstOccur (ks : List SongKey) : List SongKey :=
  ks.foldl (fun acc k => if k ∈ acc then acc else acc ++ [k]) []

/-- Fixture: an ordinary retained row. -/
def wrow1 : RawRow :=
  { song := some "Fairytale", artist := some "Tsukasa", difficulty := some "Future",
    chart_constant := .str "9.6", level := some "9", version := some "1.0" }

/-- Fixture: first row of a duplicate pair (both retained). -/
def wrowB1 : RawRow :=
  { song := some "Sayonara Hatsukoi", artist := some "HoneyWorks",
    difficulty := some "Past", chart_constant := .str "2.5", level := some "2",
    version := some "1.0" }

/-- Fixture: second row of the duplicate pair, same key, different fields. -/
def wrowB2 : RawRow :=
  { song := some "Sayonara Hatsukoi", artist := some "HoneyWorks",
    difficulty := some "Past", chart_constant := .str "3.0", level := some "3",
    version := some "2.0" }

/-- Fixture: a retained row for the C2 counterexample (constant 5.0). -/
def cexA5 : RawRow :=
  { song := some "A", artist := some "x", difficulty := some "Past",
    chart_constant := .str "5.0", level := some "5", version := some "v1" }

/-- Fixture: a later duplicate of `cexA5` excluded by the constant rule. -/
def cexA14 : RawRow :=
  { song := some "A", artist := some "x", difficulty := some "Past",
    chart_constant := .str "14.0", level := some "5", version := some "v2" }

/-- Fixture: an excluded first occurrence of key (A, x, Future). -/
def ex4A14 : RawRow :=
  { song := some "A", artist := some "x", difficulty := some "Future",
    chart_constant := .str "14.0", level := some "11", version := some "" }

/-- Fixture: a retained row with key (B, y, Past). -/
def ex4B5 : RawRow :=
  { song := some "B", artist := some "y", difficulty := some "Past",
    chart_constant := .str "5.0", level := some "5", version := some "" }

/-- Fixture: a retained later duplicate of `ex4A14`'s key. -/
def ex4A5 : RawRow :=
  { song := some "A", artist := some "x", difficulty := some "Future",
    chart_constant := .str "5.0", level := some "5", version := some "" }

/-- Fixture: a row whose title strips to empty. -/
def cexWS : RawRow :=
  { song := some "   ", artist := some "B", difficulty := some "Future",
    chart_constant := .str "5", level := some "5", version := some "" }

/-- Fixture: a well-formed row for the C5 witness. -/
def wrow5 : RawRow :=
  { song := some " Lost Desire ", artist := some "Powerless", difficulty := some "Present",
    chart_constant := .str "7.0", level := some "7", version := some "2.0" }

/-- Fixture: a plain 1-character cell. -/
def cexCell : Cell := { text := "x", link := none }

/-- Fixture: a classless table whose FIRST row has 2 cells but whose second
row has 6 cells. -/
def cexT1 : WikiTable :=
  { classes := [],
    rows := [⟨[cexCell, cexCell]⟩,
             ⟨[cexCell, cexCell, cexCell, cexCell, cexCell, cexCell]⟩] }

/-- Fixture: a classless table whose first row has 6 cells. -/
def cexT2 : WikiTable :=
  { classes := [],
    rows := [⟨[cexCell, cexCell, cexCell, cexCell, cexCell, cexCell]⟩] }

/-- Fixture: a document where no class selector matches and the two fallback
readings pick different tables. -/
def cexDoc6 : List WikiTable := [cexT1, cexT2]

/-- Fixture: a CSV row whose source title contains an underscore. -/
def cexRowFooBar : RawRow :=
  { song := some "foo_bar", artist := some "a", difficulty := some "Future",
    chart_constant := .str "5", level := some "5", version := some "" }

/-- Fixture: a CSV row whose title is "foo bar" (with a space). -/
def rowFooBarSpace : RawRow :=
  { song := some "foo bar", artist := some "a", difficulty := some "Future",
    chart_constant := .str "5", level := some "5", version := some "" }

/-- Fixture: a song-page soup with a Past variant carrying tier "-" (not to
be emitted) and a Future variant with tier "9" and score text "9.1 (?)". -/
def soup8 : SongSoup :=
  { titleMain := some "Song Eight",
    fallbackHeadings := [none, none, none, none],
    artistElem := some "Artist (feat. X)",
    chartTables :=
      [{ cells := [{ text := "", spans := [("level pst", "-"), ("level ftr", "9")] },
                   { text := "", spans := [] },
                   { text := "", spans := [("constant pst", "5"), ("constant ftr", "9.1 (?)")] }] }] }

/-- The single row `parse_song_soup` emits for `soup8`. -/
def row8 : RawRow :=
  { song := some "Song Eight", artist := some "Artist", difficulty := some "Future",
    chart_constant := .num (mkRat 91 10), level := some "9", version := some "" }

/-- Fixture: a news environment whose link scrape raises. -/
def envC10 : NewsEnv :=
  { linksResult := .error "HTTP 500",
    filterResult := fun _ => .ok [],
    soups := fun _ => .error "unused" }

/-! ## Lemmas about the insertion-ordered map -/

/-- Lookup in the `unique_rows` association list. -/
def lookupKey (m : List (SongKey × SongRec)) (k : SongKey) : Option SongRec :=
  (m.find? (fun e => decide (e.1 = k))).map (·.2)

/-- The predicate selecting the raw rows that are stored under key `k`. -/
def keyMatch (k : SongKey) (row : RawRow) : Bool :=
  !excluded row && decide (rowKey row = k)

theorem lookupKey_insert_self (m : List (SongKey × SongRec)) (k : SongKey) (v : SongRec) :
    lookupKey (insertOrdered m k v) k = some v := by
  induction m with
  | nil => simp [insertOrdered, lookupKey]
  | cons e m ih =>
    by_cases h : e.1 = k
    · simp [insertOrdered, h, lookupKey]
    · have hd : decide (e.1 = k) = false := by simpa using h
      simp only [insertOrdered, if_neg h, lookupKey, List.find?_cons, hd] at ih ⊢
      exact ih

theorem lookupKey_insert_ne (m : List (SongKey × SongRec)) (k k' : SongKey) (v : SongRec)
    (h : k' ≠ k) : lookupKey (insertOrdered m k v) k' = lookupKey m k' := by
  have hkk : decide (k = k') = false := by
    simp only [decide_eq_false_iff_not]
    exact fun h1 => h (Eq.symm h1)
  induction m with
  | nil => simp [insertOrdered, lookupKey, List.find?_cons, hkk]
  | cons e m ih =>
    by_cases he : e.1 = k
    · have he' : (decide (e.1 = k')) = false := by rw [he]; exact hkk
      simp only [insertOrdered, if_pos he, lookupKey, List.find?_cons, hkk, he']
    · simp only [insertOrdered, if_neg he, lookupKey, List.find?_cons] at ih ⊢
      cases hd : decide (e.1 = k') with
      | true => rfl
      | false => exact ih

theorem mem_insertOrdered (m : List (SongKey × SongRec)) (k : SongKey) (v : SongRec)
    (e : SongKey × SongRec) (he : e ∈ insertOrdered m k v) : e = (k, v) ∨ e ∈ m := by
  induction m with
  | nil => simpa [insertOrdered] using he
  | cons e' m ih =>
    by_cases h : e'.1 = k
    · simp only [insertOrdered, if_pos h, List.mem_cons] at he
      rcases he with h1 | h1
      · exact Or.inl h1
      · exact Or.inr (List.mem_cons_of_mem _ h1)
    · simp only [insertOrdered, if_neg h, List.mem_cons] at he
      rcases he with h1 | h1
      · exact Or.inr (h1 ▸ List.mem_cons_self _ _)
      · rcases ih h1 with h2 | h2
        · exact Or.inl h2
        · exact Or.inr (List.mem_cons_of_mem _ h2)

theorem keys_insertOrdered (m : List (SongKey × SongRec)) (k : SongKey) (v : SongRec) :
    (insertOrdered m k v).map Prod.fst =
      if k ∈ m.map Prod.fst then m.map Prod.fst else m.map Prod.fst ++ [k] := by
  induction m with
  | nil => simp [insertOrdered]
  | cons e m ih =>
    by_cases h : e.1 = k
    · simp [insertOrdered, h]
    · have hne : k ≠ e.1 := fun h1 => h (Eq.symm h1)
      by_cases hk : k ∈ m.map Prod.fst
      · simp [insertOrdered, if_neg h, ih, hk, hne]
      · simp [insertOrdered, if_neg h, ih, hk, hne]

theorem nodupKeys_insertOrdered (m : List (SongKey × SongRec)) (k : SongKey) (v : SongRec)
    (hm : (m.map Prod.fst).Nodup) : ((insertOrdered m k v).map Prod.fst).Nodup := by
  rw [keys_insertOrdered]
  by_cases hk : k ∈ m.map Prod.fst
  · simpa [hk] using hm
  · rw [if_neg hk, List.nodup_append]
    refine ⟨hm, List.nodup_singleton k, ?_⟩
    intro a ha hax
    rw [List.mem_singleton] at hax
    exact hk (hax ▸ ha)

/-! ## Lemmas about the normalization fold -/

theorem mem_normStep_foldl (rows : List RawRow) :
    ∀ m e, e ∈ rows.foldl normStep m →
      e ∈ m ∨ ∃ row, row ∈ rows ∧ excluded row = false ∧
        e = (rowKey row, normalizeRow row) := by
  induction rows with
  | nil => intro m e he; exact Or.inl he
  | cons r rest ih =>
    intro m e he
    rw [List.foldl_cons] at he
    rcases ih (normStep m r) e he with h1 | h1
    · by_cases hr : excluded r
      · rw [normStep, if_pos hr] at h1
        exact Or.inl h1
      · rw [normStep, if_neg hr] at h1
        rcases mem_insertOrdered _ _ _ _ h1 with h2 | h2
        · exact Or.inr ⟨r, List.mem_cons_self _ _, Bool.of_not_eq_true hr, h2⟩
        · exact Or.inl h2
    · rcases h1 with ⟨row, hrow, hex, hee⟩
      exact Or.inr ⟨row, List.mem_cons_of_mem _ hrow, hex, hee⟩

theorem lookupKey_foldl (k : SongKey) (rows : List RawRow) :
    ∀ m, lookupKey (rows.foldl normStep m) k =
      match rows.reverse.find? (keyMatch k) with
      | some row => some (normalizeRow row)
      | none => lookupKey m k := by
  induction rows with
  | nil => intro m; rfl
  | cons r rest ih =>
    intro m
    rw [List.foldl_cons, ih (normStep m r), List.reverse_cons, List.find?_append]
    cases hfind : rest.reverse.find? (keyMatch k) with
    | some row => rfl
    | none =>
      simp only [Option.or_none, Option.none_or]
      cases hk : keyMatch k r with
      | true =>
        simp only [List.find?_cons, hk, List.find?_nil]
        have hex : excluded r = false := by
          simpa [keyMatch, Bool.and_eq_true] using (Bool.and_elim_left (hk ▸ rfl : keyMatch k r = true))
        have hkey : rowKey r = k := by
          have := (Bool.and_elim_right (hk ▸ rfl : keyMatch k r = true))
          simpa [keyMatch] using this
        rw [normStep, if_neg (by simp [hex]), hkey]
        exact lookupKey_insert_self m k (normalizeRow r)
      | false =>
        simp only [List.find?_cons, hk, List.find?_nil]
        by_cases hex : excluded r
        · rw [normStep, if_pos hex]
        · rw [normStep, if_neg hex]
          have hkey : rowKey r ≠ k := by
            intro h1
            rw [keyMatch, h1] at hk
            simp [hex] at hk
          exact lookupKey_insert_ne m (rowKey r) k (normalizeRow r) (fun h1 => hkey (Eq.symm h1))

theorem keys_normStep_foldl (rows : List RawRow) :
    ∀ m, (rows.foldl normStep m).map Prod.fst =
      ((rows.filter (fun r => !excluded r)).map rowKey).foldl
        (fun acc k => if k ∈ acc then acc else acc ++ [k]) (m.map Prod.fst) := by
  induction rows with
  | nil => intro m; rfl
  | cons r rest ih =>
    intro m
    rw [List.foldl_cons, ih (normStep m r)]
    by_cases hex : excluded r
    · rw [List.filter_cons_of_neg (by simp [hex]), normStep, if_pos hex]
    · rw [List.filter_cons_of_pos (by simp [hex]), List.map_cons, List.foldl_cons,
        normStep, if_neg hex, keys_insertOrdered]

theorem nodupKeys_foldl (rows : List RawRow) :
    ∀ m, (m.map Prod.fst).Nodup → ((rows.foldl normStep m).map Prod.fst).Nodup := by
  induction rows with
  | nil => intro m hm; exact hm
  | cons r rest ih =>
    intro m hm
    rw [List.foldl_cons]
    apply ih
    by_cases hex : excluded r
    · rwa [normStep, if_pos hex]
    · rw [normStep, if_neg hex]
      exact nodupKeys_insertOrdered _ _ _ hm

theorem nodupKeys_normMap (rows : List RawRow) : ((normMap rows).map Prod.fst).Nodup :=
  nodupKeys_foldl rows [] (by simp)

theorem lookupKey_normMap (rows : List RawRow) (k : SongKey) :
    lookupKey (normMap rows) k =
      match rows.reverse.find? (keyMatch k) with
      | some row => some (normalizeRow row)
      | none => none := by
  rw [normMap, lookupKey_foldl k rows []]
  cases rows.reverse.find? (keyMatch k) <;> rfl

/-! ## Generic list bridging lemmas -/

theorem find?_eq_head?_filter {α : Type} (p : α → Bool) (l : List α) :
    l.find? p = (l.filter p).head? := by
  induction l with
  | nil => rfl
  | cons a l ih =>
    cases h : p a with
    | true => simp [List.find?_cons, List.filter_cons, h]
    | false =>
      rw [List.find?_cons, List.filter_cons, h, if_neg (by simp)]
      simp only [ih]

theorem find?_reverse_eq_getLast?_filter {α : Type} (p : α → Bool) (l : List α) :
    l.reverse.find? p = (l.filter p).getLast? := by
  rw [find?_eq_head?_filter, List.filter_reverse, List.head?_reverse]

theorem filter_key_of_nodup (m : List (SongKey × SongRec)) (k : SongKey)
    (hm : (m.map Prod.fst).Nodup) :
    m.filter (fun e => decide (e.1 = k)) =
      match m.find? (fun e => decide (e.1 = k)) with
      | some e => [e]
      | none => [] := by
  induction m with
  | nil => rfl
  | cons e m ih =>
    rw [List.map_cons, List.nodup_cons] at hm
    by_cases h : e.1 = k
    · have hd : decide (e.1 = k) = true := by simpa using h
      rw [List.filter_cons_of_pos (by simpa using h), List.find?_cons]
      simp only [hd]
      have hrest : m.filter (fun e => decide (e.1 = k)) = [] := by
        rw [List.filter_eq_nil_iff]
        intro e' he' hke
        have h1 : e'.1 = k := by simpa using hke
        have hk1 : k ∈ m.map Prod.fst := h1 ▸ List.mem_map_of_mem Prod.fst he'
        exact hm.1 (show e.1 ∈ m.map Prod.fst by rw [h]; exact hk1)
      rw [hrest]
    · have hd : decide (e.1 = k) = false := by simpa using h
      rw [List.filter_cons_of_neg (by simpa using h), List.find?_cons]
      simp only [hd]
      exact ih hm.2

/-! ## Derived facts connecting the map to the output list -/

theorem fst_eq_recordKey_of_mem_normMap (rows : List RawRow) (e : SongKey × SongRec)
    (he : e ∈ normMap rows) : e.1 = recordKey e.2 := by
  rcases mem_normStep_foldl rows [] e he with h1 | ⟨row, _, _, rfl⟩
  · simp at h1
  · rfl

theorem mem_normalize_of_lookup (rows : List RawRow) (k : SongKey) (v : SongRec)
    (h : lookupKey (normMap rows) k = some v) :
    v ∈ normalize rows ∧ recordKey v = k := by
  rw [lookupKey] at h
  obtain ⟨e, hfind, hev⟩ := Option.map_eq_some'.mp h
  have hmem := List.mem_of_find?_eq_some hfind
  have hpred := List.find?_some hfind
  refine ⟨hev ▸ List.mem_map_of_mem _ hmem, ?_⟩
  have h1 : e.1 = k := by simpa using hpred
  rw [← hev, ← fst_eq_recordKey_of_mem_normMap rows e hmem, h1]

theorem normalize_filter_key (rows : List RawRow) (k : SongKey) (v : SongRec)
    (h : lookupKey (normMap rows) k = some v) :
    (normalize rows).filter (fun r => decide (recordKey r = k)) = [v] := by
  have hfk := filter_key_of_nodup (normMap rows) k (nodupKeys_normMap rows)
  have hfind : (normMap rows).find? (fun e => decide (e.1 = k)) = some (k, v) := by
    rw [lookupKey] at h
    obtain ⟨e, hfind, hev⟩ := Option.map_eq_some'.mp h
    have h1 : e.1 = k := by simpa using List.find?_some hfind
    have he : e = (k, v) := by
      cases e
      simp only [Prod.mk.injEq]
      exact ⟨h1, hev⟩
    rw [← he]
    exact hfind
  rw [hfind] at hfk
  have hcomm : (normalize rows).filter (fun r => decide (recordKey r = k)) =
      ((normMap rows).filter ((fun r => decide (recordKey r = k)) ∘ Prod.snd)).map Prod.snd := by
    rw [normalize]
    exact List.filter_map Prod.snd (normMap rows)
  rw [hcomm]
  have hcong : (normMap rows).filter ((fun r => decide (recordKey r = k)) ∘ Prod.snd) =
      (normMap rows).filter (fun e => decide (e.1 = k)) := by
    apply List.filter_congr
    intro e he
    simp only [Function.comp_apply]
    rw [fst_eq_recordKey_of_mem_normMap rows e he]
  rw [hcong, hfk]
  rfl

/-! ## Lemmas about the detail-page variant guard -/

theorem level_ok_of_variantRow (title artist : String) (lc cc : VCell)
    (d : String × String) (row : RawRow)
    (h : variantRow title artist lc cc d = some row) :
    ∃ ls, row.level = some ls ∧ ¬(ls = "" ∨ pyStrip ls = "-") := by
  rw [variantRow] at h
  split at h
  · exact absurd h (by simp)
  · rename_i hguard
    refine ⟨extract_chart_prop lc d.2, ?_, hguard⟩
    rw [← Option.some.inj h]

theorem level_ok_of_mem_baseVariants (title artist : String) (t0 : ChartTable)
    (row : RawRow) (h : row ∈ baseVariants title artist t0) :
    ∃ ls, row.level = some ls ∧ ¬(ls = "" ∨ pyStrip ls = "-") := by
  rw [baseVariants] at h
  rcases hc : t0.cells with _ | ⟨c0, _ | ⟨c1, _ | ⟨c2, cr⟩⟩⟩ <;> rw [hc] at h
  · simp at h
  · simp at h
  · simp at h
  · obtain ⟨d, _, hd⟩ := List.mem_filterMap.mp h
    exact level_ok_of_variantRow title artist c0 c2 d row hd

theorem level_ok_of_mem_bydAddition (title artist : String) (base : List RawRow)
    (rest : List ChartTable) (row : RawRow)
    (hbase : ∀ r ∈ base, ∃ ls, r.level = some ls ∧ ¬(ls = "" ∨ pyStrip ls = "-"))
    (h : row ∈ bydAddition title artist base rest) :
    ∃ ls, row.level = some ls ∧ ¬(ls = "" ∨ pyStrip ls = "-") := by
  rcases rest with _ | ⟨byd, restR⟩
  · exact hbase row h
  · rw [bydAddition, bydFromTable.eq_def] at h
    rcases hc : byd.cells with _ | ⟨b0, _ | ⟨b1, _ | ⟨b2, br⟩⟩⟩ <;> rw [hc] at h
    · exact hbase row h
    · exact hbase row h
    · exact hbase row h
    · simp only at h
      split at h
      · rename_i hguard
        split at h
        · exact hbase row h
        · rcases List.mem_append.mp h with h1 | h1
          · exact hbase row h1
          · rw [List.mem_singleton] at h1
            refine ⟨pyStrip b0.text, ?_, ?_⟩
            · rw [h1]
            · intro hcon
              rcases hcon with hcon | hcon
              · exact hguard.1 hcon
              · exact hguard.2 hcon
      · exact hbase row h

/-! ## Claim theorems -/

/-- C1: for every input sequence of raw rows, the normalized output excludes
every row whose parsed constant exceeds 13 (no output record carries a
constant above 13), and every row whose constant is at most 13 or absent
(empty, the literal dash, or unparseable — `excluded row = false`) is
retained subject to deduplication: some output record carries its key. -/
theorem C1_threshold_exclusion_and_retention (rows : List RawRow) :
    (∀ r ∈ normalize rows, ∀ q : Rat, r.constant = some q → q ≤ 13) ∧
    (∀ row ∈ rows, excluded row = false →
      ∃ r ∈ normalize rows, recordKey r = rowKey row) := by
  constructor
  · intro r hr q hq
    rw [normalize, List.mem_map] at hr
    obtain ⟨e, he, rfl⟩ := hr
    rcases mem_normStep_foldl rows [] e he with h1 | ⟨row, _, hex, rfl⟩
    · simp at h1
    · have hcon : (normalizeRow row).constant = stdConst row.chart_constant := rfl
      rw [excluded] at hex
      rcases hc : stdConst row.chart_constant with _ | q'
      · rw [hcon, hc] at hq
        exact absurd hq (by simp)
      · rw [hc] at hex
        rw [hcon, hc, Option.some.injEq] at hq
        have h13 : ¬(13 < q') := by simpa using hex
        rw [← hq]
        exact le_of_not_lt h13
  · intro row hrow hex
    have hmatch : keyMatch (rowKey row) row = true := by
      rw [keyMatch, hex]
      simp
    have hfmem : row ∈ rows.filter (keyMatch (rowKey row)) :=
      List.mem_filter.mpr ⟨hrow, hmatch⟩
    have hne : rows.filter (keyMatch (rowKey row)) ≠ [] := List.ne_nil_of_mem hfmem
    have hlook : lookupKey (normMap rows) (rowKey row) =
        some (normalizeRow ((rows.filter (keyMatch (rowKey row))).getLast hne)) := by
      rw [lookupKey_normMap, find?_reverse_eq_getLast?_filter,
        List.getLast?_eq_getLast_of_ne_nil hne]
    obtain ⟨hmem, hkey⟩ := mem_normalize_of_lookup rows _ _ hlook
    exact ⟨_, hmem, hkey⟩

/-- Witness for C1: the retained fixture row's key appears in the output. -/
theorem C1_witness : ∃ r ∈ normalize [wrow1], recordKey r = rowKey wrow1 :=
  (C1_threshold_exclusion_and_retention [wrow1]).2 wrow1 (by decide) (by decide)

/-- C2 counterexample: two raw rows share a key, yet the single output record
for that key equals the FIRST row's normalization, not the last row's,
because the last duplicate (constant 14.0) is excluded before insertion. -/
theorem C2_counterexample :
    rowKey cexA14 = rowKey cexA5 ∧
    (normalize [cexA5, cexA14]).filter
      (fun r => decide (recordKey r = rowKey cexA14)) = [normalizeRow cexA5] ∧
    normalizeRow cexA5 ≠ normalizeRow cexA14 := by decide

/-- C2 amended: among the rows that SURVIVE the exclusion rule and share key
`k`, the output contains exactly one record for `k`, equal to the last such
surviving row's normalized fields. -/
theorem C2_last_surviving_duplicate_wins (rows : List RawRow) (k : SongKey)
    (h : 2 ≤ (rows.filter (keyMatch k)).length) :
    ∃ last, (rows.filter (keyMatch k)).getLast? = some last ∧
      (normalize rows).filter (fun r => decide (recordKey r = k)) =
        [normalizeRow last] := by
  have hne : rows.filter (keyMatch k) ≠ [] := by
    intro h0
    rw [h0] at h
    simp at h
  refine ⟨(rows.filter (keyMatch k)).getLast hne,
    List.getLast?_eq_getLast_of_ne_nil hne, ?_⟩
  apply normalize_filter_key
  rw [lookupKey_normMap, find?_reverse_eq_getLast?_filter,
    List.getLast?_eq_getLast_of_ne_nil hne]

/-- Witness for C2 on a concrete duplicate pair, both surviving. -/
theorem C2_witness :
    ∃ last, ([wrowB1, wrowB2].filter (keyMatch (rowKey wrowB1))).getLast? = some last ∧
      (normalize [wrowB1, wrowB2]).filter
        (fun r => decide (recordKey r = rowKey wrowB1)) = [normalizeRow last] :=
  C2_last_surviving_duplicate_wins [wrowB1, wrowB2] (rowKey wrowB1) (by decide)

/-- C3 evidence: with credentials present and zero scraped rows the process
exit status is 0 (the early `return` after the error log is a normal return),
while missing credentials give exit status 1. The claim says zero rows should
exit 1 like missing credentials do. -/
theorem C3_zero_rows_exit_status :
    main_exit { creds := some ("https://example.supabase.co", "service-key"),
                scraped := [] } = 0 ∧
    main_exit { creds := none, scraped := [] } = 1 := by decide

/-- C4 counterexample: the key of row A first appears in the input before the
key of row B, yet the output lists B's key first, because A's first
occurrence was excluded (constant 14.0) and dict insertion only happened at
A's second occurrence. -/
theorem C4_counterexample :
    [ex4A14, ex4B5, ex4A5].map rowKey = [rowKey ex4A5, rowKey ex4B5, rowKey ex4A5] ∧
    rowKey ex4A5 ≠ rowKey ex4B5 ∧
    (normalize [ex4A14, ex4B5, ex4A5]).map recordKey =
      [rowKey ex4B5, rowKey ex4A5] := by decide

/-- C4 amended: the normalized output (and the export rows) are ordered by
each key's first appearance among the rows SURVIVING the exclusion rule. -/
theorem C4_order_of_first_surviving_appearance (rows : List RawRow) :
    (normalize rows).map recordKey =
      firstOccur ((rows.filter (fun r => !excluded r)).map rowKey) ∧
    (exportRows (normalize rows)).map exportKey =
      firstOccur ((rows.filter (fun r => !excluded r)).map rowKey) := by
  have h1 : (normalize rows).map recordKey = (normMap rows).map Prod.fst := by
    rw [normalize, List.map_map]
    apply List.map_congr_left
    intro e he
    exact (fst_eq_recordKey_of_mem_normMap rows e he).symm
  have h2 : (normMap rows).map Prod.fst =
      firstOccur ((rows.filter (fun r => !excluded r)).map rowKey) := by
    rw [normMap, keys_normStep_foldl rows [], firstOccur]
    rfl
  have h3 : (exportRows (normalize rows)).map exportKey =
      (normalize rows).map recordKey := by
    rw [exportRows, List.map_map]
    rfl
  exact ⟨h1.trans h2, h3.trans (h1.trans h2)⟩

/-- C5 counterexample: a raw row whose title strips to the empty string
yields an output record with an EMPTY title — the normalizer does not enforce
non-emptiness. -/
theorem C5_counterexample :
    normalize [cexWS] =
      [{ title := "", artist := "B", difficulty := "Future",
         constant := some (mkRat 5 1), level := "5", version := "" }] ∧
    ∃ r ∈ normalize [cexWS], r.title = "" := by decide

/-- C5 amended: every output record's string fields are the stripped fields
of some input row (hence trimmed); the title is non-empty provided every
input row's stripped title is non-empty (which the table extractor
guarantees for its rows, but the normalizer itself does not check). -/
theorem C5_trimmed_fields (rows : List RawRow) :
    (∀ r ∈ normalize rows, ∃ row ∈ rows,
      r.title = pyStrip (row.song.getD "") ∧
      r.artist = pyStrip (row.artist.getD "") ∧
      r.difficulty = pyStrip (row.difficulty.getD "") ∧
      r.level = pyStrip (row.level.getD "") ∧
      r.version = pyStrip (row.version.getD "")) ∧
    ((∀ row ∈ rows, pyStrip (row.song.getD "") ≠ "") →
      ∀ r ∈ normalize rows, r.title ≠ "") := by
  have hsrc : ∀ r ∈ normalize rows, ∃ row ∈ rows, r = normalizeRow row := by
    intro r hr
    rw [normalize, List.mem_map] at hr
    obtain ⟨e, he, rfl⟩ := hr
    rcases mem_normStep_foldl rows [] e he with h1 | ⟨row, hrow, _, rfl⟩
    · simp at h1
    · exact ⟨row, hrow, rfl⟩
  constructor
  · intro r hr
    obtain ⟨row, hrow, rfl⟩ := hsrc r hr
    exact ⟨row, hrow, rfl, rfl, rfl, rfl, rfl⟩
  · intro hne r hr
    obtain ⟨row, hrow, rfl⟩ := hsrc r hr
    exact hne row hrow

/-- Witness for C5 at a concrete well-formed row. -/
theorem C5_witness : (normalizeRow wrow5).title ≠ "" :=
  (C5_trimmed_fields [wrow5]).2 (by decide) (normalizeRow wrow5) (by decide)

/-- C6 counterexample: with no class selector matching, the code picks the
FIRST table having ANY row with 6 or more cells (`cexT1`, whose first row has
only 2 cells), while the claim's rule — first table whose FIRST data row has
at least 6 cells — picks `cexT2`. -/
theorem C6_counterexample :
    (∀ sel ∈ selectorList, cexDoc6.filter (tableMatches sel) = []) ∧
    pickTables cexDoc6 = [cexT1] ∧
    specFallbackPick cexDoc6 = some cexT2 ∧
    cexT1 ≠ cexT2 := by decide

/-- C6 amended: when no class selector matches any table, the fallback
selects the first table having at least one data row with 6 or more cells
(not necessarily its first data row), and extraction proceeds on that table
only. -/
theorem C6_fallback_selects_first_wide_table (doc : List WikiTable)
    (h : ∀ sel ∈ selectorList, doc.filter (tableMatches sel) = []) :
    pickTables doc =
      (match doc.find? tableHasWideRow with
       | some t => [t]
       | none => []) ∧
    parse_songs_by_level_html doc =
      (match doc.find? tableHasWideRow with
       | some t => t.rows.filterMap parseLevelRow
       | none => []) := by
  have h1 := h ["wikitable", "sortable"] (by simp [selectorList])
  have h2 := h ["article-table", "sortable"] (by simp [selectorList])
  have h3 := h ["wikitable"] (by simp [selectorList])
  have h4 := h ["sortable"] (by simp [selectorList])
  have hsel : selectTables selectorList doc = [] := by
    rw [selectorList]
    simp [selectTables, h1, h2, h3, h4]
  have hpick : pickTables doc =
      (match doc.find? tableHasWideRow with
       | some t => [t]
       | none => []) := by
    rw [pickTables, hsel]
    simp
  refine ⟨hpick, ?_⟩
  rw [parse_songs_by_level_html, hpick]
  cases doc.find? tableHasWideRow with
  | some t => simp
  | none => rfl

/-- Witness for C6 at the concrete selector-free document. -/
theorem C6_witness :
    pickTables cexDoc6 =
      (match cexDoc6.find? tableHasWideRow with
       | some t => [t]
       | none => []) ∧
    parse_songs_by_level_html cexDoc6 =
      (match cexDoc6.find? tableHasWideRow with
       | some t => t.rows.filterMap parseLevelRow
       | none => []) :=
  C6_fallback_selects_first_wide_table cexDoc6 (by decide)

/-- C7 counterexample: a known title containing an underscore is NOT matched
by the underscore-normalized feed name, because the known side is only
stripped and lowercased — the comparison is not underscore-insensitive on
both sides as the claim states. -/
theorem C7_counterexample :
    computeGaps ["Foo_Bar"] [cexRowFooBar] = ["Foo_Bar"] ∧
    specGapsBothSides ["Foo_Bar"] [cexRowFooBar] = [] ∧
    normFeed "Foo_Bar" = normFeed "foo_bar" := by decide

/-- C7 amended: a feed name is a gap exactly when its normalized form
(underscore to space, strip, lowercase) is absent from the known set, whose
entries are normalized by strip and lowercase ONLY; the claim's example
still holds. -/
theorem C7_gap_membership (feed : List String) (rows : List RawRow) (t : String) :
    (t ∈ computeGaps feed rows ↔
      t ∈ feed ∧ ¬ normFeed t ∈ existingTitles rows) ∧
    computeGaps ["Foo_Bar", "Baz"] [rowFooBarSpace] = ["Baz"] := by
  refine ⟨?_, by decide⟩
  rw [computeGaps]
  constructor
  · intro ht
    obtain ⟨h1, h2⟩ := List.mem_filter.mp ht
    refine ⟨h1, fun hmem => ?_⟩
    have hc : (existingTitles rows).contains (normFeed t) = true :=
      List.elem_iff.mpr hmem
    rw [hc] at h2
    simp at h2
  · rintro ⟨h1, h2⟩
    refine List.mem_filter.mpr ⟨h1, ?_⟩
    have hc : (existingTitles rows).contains (normFeed t) = false := by
      rw [← Bool.not_eq_true]
      intro hcon
      exact h2 ((List.elem_iff).mp hcon)
    rw [hc]
    rfl

/-- Witness for C7 at concrete feed and known names. -/
theorem C7_witness :
    ("Baz" ∈ computeGaps ["Foo_Bar", "Baz"] [rowFooBarSpace] ↔
      "Baz" ∈ ["Foo_Bar", "Baz"] ∧
        ¬ normFeed "Baz" ∈ existingTitles [rowFooBarSpace]) ∧
    computeGaps ["Foo_Bar", "Baz"] [rowFooBarSpace] = ["Baz"] :=
  C7_gap_membership ["Foo_Bar", "Baz"] [rowFooBarSpace] "Baz"

/-- C8: every row a detail page emits carries a tier label that is neither
empty nor a bare dash (so dash/empty variants are never emitted); the score
text "9.1 (?)" cleans to 9.1; and the concrete panel with Past tier "-" and
Future tier "9" / score "9.1 (?)" emits exactly the Future row with
difficultyScore 9.1. -/
theorem C8_variant_tier_and_score (soup : SongSoup) (fb : String) :
    (∀ row ∈ parse_song_soup soup fb,
      ∃ ls, row.level = some ls ∧ ¬(ls = "" ∨ pyStrip ls = "-")) ∧
    safe_decimal "9.1 (?)" = some (mkRat 91 10) ∧
    parse_song_soup soup8 "Fallback_Name" = [row8] := by
  refine ⟨?_, by decide, by decide⟩
  intro row hrow
  simp only [parse_song_soup] at hrow
  split at hrow
  · simp at hrow
  · exact level_ok_of_mem_bydAddition _ _ _ _ row
      (fun r hr => level_ok_of_mem_baseVariants _ _ _ r hr) hrow

/-- Witness for C8: the emitted Future row satisfies the tier guard. -/
theorem C8_witness :
    ∃ ls, row8.level = some ls ∧ ¬(ls = "" ∨ pyStrip ls = "-") :=
  (C8_variant_tier_and_score soup8 "Fallback_Name").1 row8 (by decide)

/-- C9: a fetch/parse exception for a single gap candidate is absorbed at the
`fetch_song` boundary (the candidate contributes zero records) and the
remaining candidates are processed exactly as if the failing one were not
there. -/
theorem C9_single_page_failure_isolated (rows : List RawRow)
    (pre post : List (String × Except String SongSoup)) (name e : String) :
    fetch_song (Except.error e) name = [] ∧
    fillGaps rows (pre ++ (name, Except.error e) :: post) = fillGaps rows (pre ++ post) := by
  refine ⟨rfl, ?_⟩
  rw [fillGaps, fillGaps, List.foldl_append, List.foldl_append, List.foldl_cons]
  congr 1
  exact List.append_nil _

/-- C10: when the news/gap step as a whole raises (links scrape or category
filter), the exception is caught and the pipeline continues with exactly the
rows collected so far, so the normalized output and export rows equal those
of a run with gap-filling disabled. -/
theorem C10_stage_failure_atomic (rows : List RawRow) (env : NewsEnv)
    (h : stageRaises env = true) :
    gapFillStage rows env = rows ∧
    normalize (gapFillStage rows env) = normalize rows ∧
    exportRows (normalize (gapFillStage rows env)) = exportRows (normalize rows) := by
  have h1 : gapFillStage rows env = rows := by
    rw [stageRaises] at h
    cases hl : env.linksResult with
    | error e => simp only [gapFillStage, hl]
    | ok ts =>
      simp only [hl] at h
      cases hf : env.filterResult ts with
      | error e => simp only [gapFillStage, hl, hf]
      | ok tss =>
        simp only [hf] at h
        simp at h
  exact ⟨h1, by rw [h1], by rw [h1]⟩

/-- Witness for C10 at a concrete raising environment. -/
theorem C10_witness :
    gapFillStage [wrow1] envC10 = [wrow1] ∧
    normalize (gapFillStage [wrow1] envC10) = normalize [wrow1] ∧
    exportRows (normalize (gapFillStage [wrow1] envC10)) =
      exportRows (normalize [wrow1]) :=
  C10_stage_failure_atomic [wrow1] envC10 rfl

section Sanity

example : pyFloat? "9.1" = some (mkRat 91 10) := by decide
example : pyFloat? "14.0" = some (mkRat 14 1) := by decide
example : pyFloat? "" = none := by decide
example : pyFloat? "-" = none := by decide
example : pyFloat? "9.1.2" = none := by decide
example : pyFloat? " 13 " = some (mkRat 13 1) := by decide
example : pyFloat? "-5.25" = some (mkRat (-21) 4) := by decide
example : pyStrip "  a b " = "a b" := by decide
example : safe_decimal "9.1 (?)" = some (mkRat 91 10) := by decide
example : removeParenGroups "Artist (feat. X)".data = "Artist ".data := by decide
example : parse_song_soup soup8 "Fallback_Name" = [row8] := by decide
example : computeGaps ["Foo_Bar", "Baz"] [rowFooBarSpace] = ["Baz"] := by decide
example : computeGaps ["Foo_Bar"] [cexRowFooBar] = ["Foo_Bar"] := by decide
example : pickTables cexDoc6 = [cexT1] := by decide
example : specFallbackPick cexDoc6 = some cexT2 := by decide
example : normalize [cexA5, cexA14] = [normalizeRow cexA5] := by decide
example : normalize [ex4A14, ex4B5, ex4A5] =
    [normalizeRow ex4B5, normalizeRow ex4A5] := by decide
example : main_exit { creds := some ("u", "k"), scraped := [] } = 0 := by decide

end Sanity

end ArcaeaPipeline
